import Mathlib

/-!
Verification of the research-assistant-proxy content pipeline.

This file gives a shallow embedding of the JavaScript sources of the
repository (content quality scorer, HTML pre-processor with its content
preservation predicate, the content-cleaning error boundaries, the
content-type metadata path of the fetch pipeline, and the bookmark batch
bookkeeping), and proves or refutes the specification claims about them.

JavaScript strings are modelled as Lean `String`; JS regular-expression
splits such as `split(/\s+/)` are modelled by explicit run-splitting
functions with the exact JS edge behaviour (leading/trailing empty
tokens, `"".split` returning `[""]`); JS numbers are modelled as `ℚ`
(all arithmetic in the sources stays exact on the inputs of interest,
and division by zero, which yields `NaN` in JS and makes every `<`/`>`
comparison false, only occurs in the sources at comparisons that are
also false for the Lean convention `x / 0 = 0`).
-/

namespace RAProxy

/-- Model of the JS `\s` character class on the inputs of interest
(ASCII whitespace plus the no-break space ` `). -/
def jsIsSpace (c : Char) : Bool :=
  c = ' ' ∨ c = '\t' ∨ c = '\n' ∨ c = '\r' ∨ c = Char.ofNat 11 ∨
    c = Char.ofNat 12 ∨ c = Char.ofNat 160

/-- Model of JS `String.prototype.trim`. -/
def jsTrim (s : String) : String :=
  String.mk (((s.toList.dropWhile jsIsSpace).reverse.dropWhile jsIsSpace).reverse)

/-- Splitting on maximal runs of characters satisfying `p`, as the JS
`split` with a one-character-class `+` regex does: a leading run yields a
leading empty token, a trailing run a trailing empty token, and the empty
string yields `[""]`. -/
def jsSplitRunsAux (p : Char → Bool) (acc : List Char) (inSep : Bool) :
    List Char → List String
  | [] => [String.mk acc.reverse]
  | c :: cs =>
    if p c then
      if inSep then jsSplitRunsAux p acc true cs
      else String.mk acc.reverse :: jsSplitRunsAux p [] true cs
    else jsSplitRunsAux p (c :: acc) false cs

/-- Model of JS `s.split(re)` for a regex of the form `[…]+`. -/
def jsSplitRuns (p : Char → Bool) (s : String) : List String :=
  jsSplitRunsAux p [] false s.toList

/-- Model of JS `s.split(/\s+/)`. -/
def jsSplitWs (s : String) : List String :=
  jsSplitRuns jsIsSpace s

/-- Replace every maximal run of characters satisfying `p` by a single
space, as JS `s.replace(/[…]+/g, ' ')` does. -/
def collapseRunsAux (p : Char → Bool) (inRun : Bool) : List Char → List Char
  | [] => []
  | c :: cs =>
    if p c then
      if inRun then collapseRunsAux p true cs
      else ' ' :: collapseRunsAux p true cs
    else c :: collapseRunsAux p false cs

/-- Model of JS `s.replace(/\s+/g, ' ')`. -/
def collapseWs (s : String) : String :=
  String.mk (collapseRunsAux jsIsSpace false s.toList)

/-- Model of JS `s.replace(/\n+/g, ' ')`. -/
def collapseNewlines (s : String) : String :=
  String.mk (collapseRunsAux (fun c => c = '\n') false s.toList)

/-- Remove every occurrence of the listed characters, as a JS
`s.replace(/[…]/g, '')` does. -/
def removeChars (bad : List Char) (s : String) : String :=
  String.mk (s.toList.filter (fun c => ¬ bad.contains c))

/-- Count the occurrences of the listed characters. -/
def countChars (good : List Char) (s : String) : Nat :=
  (s.toList.filter (fun c => good.contains c)).length

/-- Model of JS `Math.round` (round half toward positive infinity). -/
def jsRound (q : ℚ) : ℤ := Rat.floor (q + 1/2)

/-- Number of duplicate entries of a list: each element occurrence
beyond the first of its value, i.e. what the `Set`-based duplicate
counters of the sources compute. -/
def dupCount (l : List String) : Nat := l.length - l.dedup.length

/-- Splitting on a literal separator string, as JS `s.split(sep)` does
(`fuel` bounds the recursion by the input length; each step consumes at
least one character). -/
def jsSplitOnSepAux (sep : List Char) : Nat → List Char → List Char → List (List Char)
  | 0, acc, l => [acc.reverse ++ l]
  | _ + 1, acc, [] => [acc.reverse]
  | fuel + 1, acc, c :: cs =>
    if sep.isPrefixOf (c :: cs) then
      acc.reverse :: jsSplitOnSepAux sep fuel [] ((c :: cs).drop sep.length)
    else jsSplitOnSepAux sep fuel (c :: acc) cs

/-- Model of JS `s.split(sep)` for a nonempty literal separator. -/
def jsSplitOnSep (sep s : String) : List String :=
  (jsSplitOnSepAux sep.toList s.toList.length [] s.toList).map String.mk

/-- Model of JS `s.toLowerCase()` on the inputs of interest. -/
def jsToLower (s : String) : String :=
  String.mk (s.toList.map Char.toLower)

/-! ## Content quality scorer (`ContentScorer`)

Embedding of the quality scorer: the five dimension sub-scores, the
weight table, the weighted overall score, indicators, recommendations,
and the catch-all error result. -/

/-- The character class `[#*\x5b\x5d` ` ]` that the scorer strips for the
readability analysis and counts for the formatting density. -/
def formattingChars : List Char := ['#', '*', '[', ']', Char.ofNat 96]

/-- Line test for the scorer regex `^#+\s+.+$` (a heading line with a
nonempty title). -/
def lineMatchesHeadingFull (l : String) : Bool :=
  let cs := l.toList
  ((cs.takeWhile (· = '#')).length ≥ 1 : Bool) &&
    (match cs.dropWhile (· = '#') with
     | r :: _ :: _ => jsIsSpace r
     | _ => false)

/-- Line test for the scorer regexes `^#\s+`, `^##\s+`, `^###\s+`
(exactly `k` leading hashes followed by whitespace: a further hash is not
whitespace, so `^#\s+` cannot fire on an `##` line). -/
def lineMatchesHashSpace (k : Nat) (l : String) : Bool :=
  let cs := l.toList
  (cs.take k == List.replicate k '#') &&
    (match cs.drop k with
     | c :: _ => jsIsSpace c
     | [] => false)

/-- Line test for the scorer regex `^#+\s+` (any heading marker). -/
def lineMatchesHashesSpace (l : String) : Bool :=
  let cs := l.toList
  ((cs.takeWhile (· = '#')).length ≥ 1 : Bool) &&
    (match cs.dropWhile (· = '#') with
     | c :: _ => jsIsSpace c
     | [] => false)

/-- Line test for the bullet-list regex `^[-*+]\s+`. -/
def lineMatchesBullet (l : String) : Bool :=
  match l.toList with
  | c :: d :: _ => (c = '-' ∨ c = '*' ∨ c = '+') ∧ jsIsSpace d
  | _ => false

/-- Line test for the numbered-list regex `^\d+\.\s+`. -/
def lineMatchesNumbered (l : String) : Bool :=
  let cs := l.toList
  ((cs.takeWhile Char.isDigit).length ≥ 1 : Bool) &&
    (match cs.dropWhile Char.isDigit with
     | '.' :: c :: _ => jsIsSpace c
     | _ => false)

/-- Line test for the indicator regex `^[-*+\d]+\.?\s+`. -/
def lineMatchesListItem (l : String) : Bool :=
  let isMark : Char → Bool := fun c => c = '-' ∨ c = '*' ∨ c = '+' ∨ c.isDigit
  let cs := l.toList
  ((cs.takeWhile isMark).length ≥ 1 : Bool) &&
    (match cs.dropWhile isMark with
     | '.' :: c :: _ => jsIsSpace c
     | c :: _ => jsIsSpace c
     | [] => false)

/-- `_scoreLengthQuality` after computing the word count: the bucket
curve exactly as the chain of early returns in the source orders it
(note that the `> 5000` test precedes the `> 10000` test). -/
def lengthBucketScore (wordCount : Nat) : ℚ :=
  if wordCount < 50 then 10
  else if wordCount < 100 then 30
  else if wordCount < 200 then 50
  else if wordCount < 500 then 70
  else if wordCount < 1000 then 85
  else if wordCount < 2000 then 95
  else if wordCount > 5000 then 80
  else if wordCount > 10000 then 60
  else 100

/-- `ContentScorer._scoreLengthQuality`. -/
def scoreLengthQuality (content : String) : ℚ :=
  lengthBucketScore (jsSplitWs content).length

/-- The paragraph list `content.split('\n\n').filter(p => p.trim().length > 20)`
used by the structural score and the indicators. -/
def structureParagraphs (content : String) : List String :=
  (jsSplitOnSep "\n\n" content).filter (fun p => (jsTrim p).length > 20)

/-- `ContentScorer._scoreStructuralQuality`. -/
def scoreStructuralQuality (content : String) : ℚ :=
  let lines := jsSplitOnSep "\n" content
  let headings := lines.filter lineMatchesHeadingFull
  let h1Count := (lines.filter (lineMatchesHashSpace 1)).length
  let h2Count := (lines.filter (lineMatchesHashSpace 2)).length
  let h3Count := (lines.filter (lineMatchesHashSpace 3)).length
  let headingScore : ℚ :=
    if headings.length > 0 then
      30 + (if h1Count = 1 ∧ h2Count > 0 then 20 else 0) +
        (if h3Count > 0 ∧ h2Count > 0 then 10 else 0)
    else 0
  let paragraphs := structureParagraphs content
  let paraScore : ℚ :=
    if paragraphs.length ≥ 3 then
      let lengths : List ℚ := paragraphs.map (fun p => (p.length : ℚ))
      let avgLength := lengths.sum / (lengths.length : ℚ)
      let variance := (lengths.map (fun len => (len - avgLength) ^ 2)).sum / (lengths.length : ℚ)
      25 + (if variance > 1000 then 15 else 0)
    else 0
  let bullets := lines.filter lineMatchesBullet
  let numbered := lines.filter lineMatchesNumbered
  let lists := if bullets ≠ [] then bullets else if numbered ≠ [] then numbered else []
  let listScore : ℚ := if lists.length > 0 then 10 else 0
  min (headingScore + paraScore + listScore) 100

/-- The sentence-boundary character class `[.!?]`. -/
def sentenceChar (c : Char) : Bool := c = '.' ∨ c = '!' ∨ c = '?'

/-- The plain text that `_scoreReadabilityQuality` analyses:
markdown characters removed, newline runs collapsed to spaces, trimmed. -/
def readabilityPlainText (content : String) : String :=
  jsTrim (collapseNewlines (removeChars formattingChars content))

/-- `ContentScorer._scoreReadabilityQuality`. -/
def scoreReadabilityQuality (content : String) : ℚ :=
  let plainText := readabilityPlainText content
  if plainText = "" then 0 else
  let sentences := (jsSplitRuns sentenceChar plainText).filter
    (fun s => (jsTrim s).length > 10)
  let sentenceScore : ℚ :=
    if sentences.length ≥ 5 then
      let avgSentenceLength : ℚ :=
        ((sentences.map (fun s => (((jsSplitOnSep " " s).length : ℚ)))).sum) / (sentences.length : ℚ)
      30 + (if 10 ≤ avgSentenceLength ∧ avgSentenceLength ≤ 30 then 20 else 0) +
        (if 15 ≤ avgSentenceLength ∧ avgSentenceLength ≤ 25 then 10 else 0)
    else 0
  let punctuationCount := countChars ['.', '!', '?', ';', ':', ','] plainText
  let wordCount := (jsSplitWs plainText).length
  let punctuationRatio : ℚ := (punctuationCount : ℚ) / (wordCount : ℚ)
  let punctScore : ℚ :=
    if 1/20 ≤ punctuationRatio ∧ punctuationRatio ≤ 1/5 then 20 else 0
  let starters := sentences.map (fun s => jsToLower (((jsSplitOnSep " " (jsTrim s)).headD "")))
  let starterVariety : ℚ := (starters.dedup.length : ℚ) / (sentences.length : ℚ)
  let varietyScore : ℚ :=
    (if starterVariety > 7/10 then 15 else 0) + (if starterVariety > 4/5 then 10 else 0)
  let words := (jsSplitWs (jsToLower plainText)).filter (fun w => w.length > 3)
  let repeatedWords := words.dedup.filter (fun w => words.count w > 5)
  let repeatPenalty : ℚ := if repeatedWords.length > 3 then 10 else 0
  max 0 (min (sentenceScore + punctScore + varietyScore - repeatPenalty) 100)

/-- The chunk list `content.split('\n\n').filter(c => c.trim().length > 30)`
that `_scoreUniqueness` inspects. -/
def uniquenessChunks (content : String) : List String :=
  (jsSplitOnSep "\n\n" content).filter (fun c => (jsTrim c).length > 30)

/-- `ContentScorer._scoreUniqueness`. With fewer than two substantial
chunks the function returns the initial score `100` before any
duplicate analysis. -/
def scoreUniqueness (content : String) : ℚ :=
  let chunks := uniquenessChunks content
  if chunks.length < 2 then 100 else
    let normalized := chunks.map (fun c => jsTrim (collapseWs (jsToLower c)))
    let duplicates := dupCount normalized
    let duplicateRatio : ℚ := (duplicates : ℚ) / (chunks.length : ℚ)
    let afterChunks : ℚ := 100 - duplicateRatio * 50
    let sentences := jsSplitRuns sentenceChar content
    let shortSentences := sentences.filter
      (fun s => (jsTrim s).length < 50 ∧ (jsTrim s).length > 5)
    let shortDuplicates := dupCount (shortSentences.map (fun s => jsTrim (jsToLower s)))
    max 0 (afterChunks - (if shortDuplicates > 2 then 20 else 0))

/-- Match test at a fixed position for the bold regex `\*\*[^*]+\*\*`. -/
def startsBold (l : List Char) : Bool :=
  match l with
  | '*' :: '*' :: rest =>
    ((rest.takeWhile (· ≠ '*')).length ≥ 1 : Bool) &&
      ((rest.dropWhile (· ≠ '*')).take 2 == ['*', '*'])
  | _ => false

/-- Match test at a fixed position for the italic regex `\*[^*]+\*`. -/
def startsItalic (l : List Char) : Bool :=
  match l with
  | '*' :: rest =>
    ((rest.takeWhile (· ≠ '*')).length ≥ 1 : Bool) &&
      ((rest.dropWhile (· ≠ '*')).take 1 == ['*'])
  | _ => false

/-- Match test at a fixed position for the link regex
`\[[^\x5d]+\]\([^)]+\)`. -/
def startsLink (l : List Char) : Bool :=
  match l with
  | '[' :: rest =>
    ((rest.takeWhile (· ≠ ']')).length ≥ 1 : Bool) &&
      (match rest.dropWhile (· ≠ ']') with
       | ']' :: '(' :: rest2 =>
         ((rest2.takeWhile (· ≠ ')')).length ≥ 1 : Bool) &&
           ((rest2.dropWhile (· ≠ ')')).take 1 == [')'])
       | _ => false)
  | _ => false

/-- `ContentScorer._scoreFormattingQuality`. -/
def scoreFormattingQuality (content : String) : ℚ :=
  let lines := jsSplitOnSep "\n" content
  let hasHeadings := lines.any lineMatchesHashesSpace
  let hasBold := content.toList.tails.any startsBold
  let hasItalic := content.toList.tails.any startsItalic
  let hasLinks := content.toList.tails.any startsLink
  let hasLists := lines.any lineMatchesBullet ∨ lines.any lineMatchesNumbered
  let hasTables := lines.any (fun l => (l.toList.filter (· = '|')).length ≥ 2)
  let base : ℚ :=
    (if hasHeadings then 25 else 0) + (if hasBold then 15 else 0) +
      (if hasItalic then 10 else 0) + (if hasLinks then 20 else 0) +
      (if hasLists then 15 else 0) + (if hasTables then 15 else 0) +
      (if (jsSplitOnSep "\n\n" content).length > 1 then 10 else 0)
  let formattingDensity : ℚ :=
    (countChars formattingChars content : ℚ) / (content.length : ℚ)
  min (base - (if formattingDensity > 1/10 then 20 else 0)) 100

/-- The five sub-scores of `ContentScorer.scoreContent`. -/
structure ScoreBreakdown where
  lengthS : ℚ
  structureS : ℚ
  readabilityS : ℚ
  uniquenessS : ℚ
  formattingS : ℚ

/-- The weight table held by a `ContentScorer` instance. -/
structure Weights where
  lengthW : ℚ
  structureW : ℚ
  readabilityW : ℚ
  uniquenessW : ℚ
  formattingW : ℚ

/-- The constructor weights `{length: 0.2, structure: 0.25,
readability: 0.25, uniqueness: 0.15, formatting: 0.15}`. -/
def defaultWeights : Weights := ⟨2/10, 25/100, 25/100, 15/100, 15/100⟩

/-- Sum of the five weights. -/
def weightSum (w : Weights) : ℚ :=
  w.lengthW + w.structureW + w.readabilityW + w.uniquenessW + w.formattingW

/-- An argument to `setWeights`: a JS object that may carry any subset
of the five weight keys. -/
structure WeightUpdate where
  lengthW : Option ℚ := none
  structureW : Option ℚ := none
  readabilityW : Option ℚ := none
  uniquenessW : Option ℚ := none
  formattingW : Option ℚ := none

/-- `ContentScorer.setWeights`: the spread-merge
`this.weights = { ...this.weights, ...newWeights }`, with no
validation of the resulting weights. -/
def setWeights (w : Weights) (u : WeightUpdate) : Weights :=
  ⟨u.lengthW.getD w.lengthW, u.structureW.getD w.structureW,
    u.readabilityW.getD w.readabilityW, u.uniquenessW.getD w.uniquenessW,
    u.formattingW.getD w.formattingW⟩

/-- The five sub-scores computed in `scoreContent`. -/
def scoreBreakdown (content : String) : ScoreBreakdown :=
  ⟨scoreLengthQuality content, scoreStructuralQuality content,
    scoreReadabilityQuality content, scoreUniqueness content,
    scoreFormattingQuality content⟩

/-- The weighted overall score reduce in `scoreContent`. -/
def overallScore (w : Weights) (b : ScoreBreakdown) : ℚ :=
  b.lengthS * w.lengthW + b.structureS * w.structureW +
    b.readabilityS * w.readabilityW + b.uniquenessS * w.uniquenessW +
    b.formattingS * w.formattingW

/-- `ContentScorer._getRecommendations`. -/
def getRecommendations (b : ScoreBreakdown) : List String :=
  let recs :=
    (if b.lengthS < 50 then ["Content may be too short or poorly extracted"] else []) ++
    (if b.structureS < 50 then ["Improve heading structure and paragraph organization"] else []) ++
    (if b.readabilityS < 50
      then ["Content may contain navigation elements or poor sentence structure"] else []) ++
    (if b.uniquenessS < 50
      then ["Detected repeated content - cleaning rules may need improvement"] else []) ++
    (if b.formattingS < 50
      then ["Formatting could be improved or contains residual HTML"] else [])
  if recs = [] then ["Content quality looks good!"] else recs

/-- `ContentScorer._getQualityIndicators`. -/
structure QualityIndicators where
  wordCount : Nat
  paragraphCount : Nat
  headingCount : Nat
  linkCount : Nat
  listItemCount : Nat
  averageParagraphLength : ℤ
  formattingRatio : ℚ

/-- Length in characters of the link match starting at this position,
if the link regex matches here. -/
def linkMatchLen (l : List Char) : Option Nat :=
  match l with
  | '[' :: rest =>
    let txt := rest.takeWhile (· ≠ ']')
    if txt.length ≥ 1 then
      match rest.dropWhile (· ≠ ']') with
      | ']' :: '(' :: rest2 =>
        let url := rest2.takeWhile (· ≠ ')')
        if url.length ≥ 1 ∧ (rest2.dropWhile (· ≠ ')')).take 1 = [')'] then
          some (txt.length + url.length + 4)
        else none
      | _ => none
    else none
  | _ => none

/-- Count of the non-overlapping link-regex matches of a global
`match`, scanning left to right (`fuel` bounds the recursion by the
input length). -/
def countLinksAux (fuel : Nat) (l : List Char) : Nat :=
  match fuel with
  | 0 => 0
  | fuel + 1 =>
    match l with
    | [] => 0
    | c :: cs =>
      match linkMatchLen (c :: cs) with
      | some n => 1 + countLinksAux fuel ((c :: cs).drop n)
      | none => countLinksAux fuel cs

/-- Number of link matches in a string. -/
def countLinks (s : String) : Nat :=
  countLinksAux s.toList.length s.toList

/-- The indicator record of `scoreContent`. -/
def qualityIndicators (content : String) : QualityIndicators :=
  let lines := jsSplitOnSep "\n" content
  let wordCount := (jsSplitWs content).length
  let paragraphCount := (structureParagraphs content).length
  { wordCount := wordCount
    paragraphCount := paragraphCount
    headingCount := (lines.filter lineMatchesHashesSpace).length
    linkCount := countLinks content
    listItemCount := (lines.filter lineMatchesListItem).length
    averageParagraphLength :=
      if paragraphCount > 0 then jsRound ((wordCount : ℚ) / (paragraphCount : ℚ)) else 0
    formattingRatio :=
      (jsRound ((countChars formattingChars content : ℚ) / (content.length : ℚ) * 1000) : ℚ) / 10 }

/-- The result record of `ContentScorer.scoreContent`. `breakdown` and
`indicators` are `none` on the error path, which returns the empty
objects of the source. -/
structure ScoreResult where
  overall : ℤ
  breakdown : Option ScoreBreakdown
  indicators : Option QualityIndicators
  recommendations : List String
  error : Option String

/-- The `try` body of `ContentScorer.scoreContent` (total in this pure
model), with the constructor weight table. -/
def scoreContent (content : String) : ScoreResult :=
  let b := scoreBreakdown content
  { overall := jsRound (overallScore defaultWeights b)
    breakdown := some b
    indicators := some (qualityIndicators content)
    recommendations := getRecommendations b
    error := none }

/-- The `catch` result of `scoreContent`: the neutral default overall
score together with the error flag. -/
def scoreErrorResult (msg : String) : ScoreResult :=
  { overall := 50
    breakdown := none
    indicators := none
    recommendations := ["Error occurred during scoring"]
    error := some msg }

/-- `scoreContent` with its `try`/`catch` boundary made explicit:
`body` stands for the computation of the `try` block, which in the
running system can throw. -/
def scoreContentGuarded (body : String → Except String ScoreResult)
    (content : String) : ScoreResult :=
  match body content with
  | Except.ok r => r
  | Except.error e => scoreErrorResult e

/-! ## DOM model and HTML pre-processor (`PreProcessor`)

A mutable-DOM document is modelled as a tree of element and text nodes;
elements carry tag, id, class list and attribute list. The CSS
selectors used by the rule sets and by `_performContentCleaning` are
modelled by the `Sel` inductive. Node removal rebuilds the tree, with
the decision for an element taken on its state at the moment the pass
reaches it, which coincides with the JSDOM snapshot-then-forEach
behaviour of the source (ancestors precede descendants in the
snapshot, and earlier removals in a pass never alter the content seen
by a later decision of the same pass). -/

/-- A DOM node: an element (tag, id attribute, class list, other
attributes, children) or a text node. -/
inductive DomNode where
  | elem (tag : String) (idAttr : String) (classes : List String)
      (attrs : List (String × String)) (children : List DomNode)
  | text (s : String)

/-- The selector fragments appearing in the rule sets and the cleaner. -/
inductive Sel where
  | tag (t : String)
  | cls (c : String)
  | idIs (i : String)
  | attrEq (name val : String)
  | attrHas (name : String)
  | tagEmpty (t : String)

/-- `element.matches(sel)` for a single selector; text nodes match
nothing. `t:empty` holds when the element has no child nodes at all. -/
def selMatches (s : Sel) : DomNode → Bool
  | .text _ => false
  | .elem tag idAttr classes attrs children =>
    match s with
    | .tag t => tag == t
    | .cls c => classes.contains c
    | .idIs i => idAttr == i
    | .attrEq n v => attrs.contains (n, v)
    | .attrHas n => (attrs.map Prod.fst).contains n
    | .tagEmpty t => tag == t && children.isEmpty

mutual

/-- `node.textContent`: concatenation of all text descendants. -/
def textContent : DomNode → String
  | .text s => s
  | .elem _ _ _ _ cs => textContentList cs

def textContentList : List DomNode → String
  | [] => ""
  | c :: cs => textContent c ++ textContentList cs

end

mutual

/-- A node together with its element descendants in document
(pre-)order; a text node contributes nothing. -/
def selfAndDescElems : DomNode → List DomNode
  | .text _ => []
  | .elem t i cl a ch => DomNode.elem t i cl a ch :: descElemsList ch

/-- The elements of a forest with their descendants, in document
(pre-)order. -/
def descElemsList : List DomNode → List DomNode
  | [] => []
  | c :: cs => selfAndDescElems c ++ descElemsList cs

end

/-- The element descendants of a node in document (pre-)order,
excluding the node itself: the universe that
`element.querySelectorAll` searches. -/
def descElems : DomNode → List DomNode
  | .text _ => []
  | .elem _ _ _ _ cs => descElemsList cs

/-- The landmark selector list
`[role="main"], main, #MainContent, .main-content, .content, article`
of `_shouldPreserveElement`. -/
def landmarkSels : List Sel :=
  [Sel.attrEq "role" "main", Sel.tag "main", Sel.idIs "MainContent",
    Sel.cls "main-content", Sel.cls "content", Sel.tag "article"]

/-- The structural-content selector list `h1, h2, h3, p, article, table`
of `_shouldPreserveElement`. -/
def structuralSels : List Sel :=
  [Sel.tag "h1", Sel.tag "h2", Sel.tag "h3", Sel.tag "p",
    Sel.tag "article", Sel.tag "table"]

/-- `PreProcessor._shouldPreserveElement`: the content-preservation
predicate, exactly as the chain of early returns in the source orders
it. Note the strict comparisons `> 300`, `> 0.5`, `> 50` and `> 100`,
and that only the first `table` descendant is consulted. -/
def shouldPreserveElement (e : DomNode) : Bool :=
  if landmarkSels.any (fun s => selMatches s e) then true
  else
    let tc := jsTrim (textContent e)
    let substantial :=
      if tc.length > 300 then
        let words := jsSplitWs tc
        let uniqueCount := (words.map jsToLower).dedup.length
        let uniqueRatio : ℚ := (uniqueCount : ℚ) / (words.length : ℚ)
        ((uniqueRatio > 1/2 : Bool)) && ((words.length > 50 : Bool))
      else false
    if substantial then true
    else if ((descElems e).filter
        (fun d => structuralSels.any (fun s => selMatches s d))).length ≥ 3 then true
    else
      match ((descElems e).filter (selMatches (Sel.tag "table"))).head? with
      | some t => (jsTrim (textContent t)).length > 100
      | none => false

/-- The content-preservation predicate as the specification words it:
an element is preserved if it matches a canonical main-content
landmark, or its trimmed text exceeds 300 characters with a
unique-word ratio above 0.5 and at least 50 words, or it contains at
least 3 structural content descendants, or it contains a table whose
text is at least 100 characters long. -/
def specPreserveElement (e : DomNode) : Bool :=
  landmarkSels.any (fun s => selMatches s e) ||
  (let tc := jsTrim (textContent e)
   let words := jsSplitWs tc
   let uniqueCount := (words.map jsToLower).dedup.length
   ((tc.length > 300 : Bool)) &&
     (((uniqueCount : ℚ) / (words.length : ℚ) > 1/2 : Bool)) &&
     ((words.length ≥ 50 : Bool))) ||
  (((descElems e).filter
      (fun d => structuralSels.any (fun s => selMatches s d))).length ≥ 3 : Bool) ||
  ((descElems e).filter (selMatches (Sel.tag "table"))).any
    (fun t => ((jsTrim (textContent t)).length ≥ 100 : Bool))

mutual

/-- One removal-selector application of `_applyRule`: an element
matched by the selector is removed together with its subtree unless
the content-preservation predicate holds for it at that moment;
matched descendants of a preserved element are still visited. -/
def removeBySel (sel : Sel) : DomNode → Option DomNode
  | .text s => some (.text s)
  | .elem t i cl a ch =>
    if selMatches sel (.elem t i cl a ch) &&
        !shouldPreserveElement (.elem t i cl a ch) then none
    else some (.elem t i cl a (removeBySelList sel ch))

def removeBySelList (sel : Sel) : List DomNode → List DomNode
  | [] => []
  | c :: cs =>
    (match removeBySel sel c with
     | some c2 => [c2]
     | none => []) ++ removeBySelList sel cs

end

/-- The cleaning actions of `_applyCleaningAction`. -/
inductive CleanAction where
  | removeAttribute (attr : String)
  | removeIfEmpty
  | removeIfOnlyWhitespace
  | removeClass (className : Option String)

/-- A cleaning instruction `{selector, action, …}`. -/
structure CleanRule where
  selector : Sel
  action : CleanAction

/-- `element.querySelector('img, video, iframe')` is some element. -/
def hasMediaDesc (e : DomNode) : Bool :=
  (descElems e).any (fun d =>
    [Sel.tag "img", Sel.tag "video", Sel.tag "iframe"].any (fun s => selMatches s d))

mutual

/-- `PreProcessor._applyCleaningAction` for one cleaning instruction:
modify or conditionally remove every element matched by its selector. -/
def applyCleanRule (r : CleanRule) : DomNode → Option DomNode
  | .text s => some (.text s)
  | .elem t i cl a ch =>
    let e := DomNode.elem t i cl a ch
    if selMatches r.selector e then
      match r.action with
      | .removeAttribute attr =>
        some (.elem t i cl (a.filter (fun p => p.1 ≠ attr)) (applyCleanRuleList r ch))
      | .removeIfEmpty =>
        if jsTrim (textContent e) = "" then none
        else some (.elem t i cl a (applyCleanRuleList r ch))
      | .removeIfOnlyWhitespace =>
        if jsTrim (textContent e) = "" && !hasMediaDesc e then none
        else some (.elem t i cl a (applyCleanRuleList r ch))
      | .removeClass cn =>
        match cn with
        | some c =>
          if cl.contains c then
            some (.elem t i (cl.filter (· ≠ c)) a (applyCleanRuleList r ch))
          else some (.elem t i cl a (applyCleanRuleList r ch))
        | none => some (.elem t i cl a (applyCleanRuleList r ch))
    else some (.elem t i cl a (applyCleanRuleList r ch))

def applyCleanRuleList (r : CleanRule) : List DomNode → List DomNode
  | [] => []
  | c :: cs =>
    (match applyCleanRule r c with
     | some c2 => [c2]
     | none => []) ++ applyCleanRuleList r cs

end

/-- A text pattern of a rule set: `none` when the regex test fails,
`some r` when it succeeds and replacement with the empty string yields
`r`. -/
def TextPattern : Type := String → Option String

/-- Apply the pattern list to one text node, reporting whether any
pattern fired. -/
def patResult (pats : List TextPattern) (s : String) : String × Bool :=
  pats.foldl
    (fun acc pat =>
      match pat acc.1 with
      | some r => (r, true)
      | none => acc)
    (s, false)

mutual

/-- `PreProcessor._cleanTextPatterns`: rewrite every text node through
the patterns; an element one of whose direct text children was modified
to emptiness is removed when its whole text content has become
whitespace-only and it holds no media descendant. -/
def cleanTextPat (pats : List TextPattern) : DomNode → Option DomNode
  | .text s => some (.text (patResult pats s).1)
  | .elem t i cl a ch =>
    let newCh := cleanTextPatList pats ch
    let e2 := DomNode.elem t i cl a newCh
    let triggered := ch.any (fun c =>
      match c with
      | .text s =>
        (patResult pats s).2 && (jsTrim (patResult pats s).1 == "")
      | _ => false)
    if triggered && (jsTrim (textContent e2) == "") && !hasMediaDesc e2 then none
    else some e2

def cleanTextPatList (pats : List TextPattern) : List DomNode → List DomNode
  | [] => []
  | c :: cs =>
    (match cleanTextPat pats c with
     | some c2 => [c2]
     | none => []) ++ cleanTextPatList pats cs

end

/-- A parsed document: the node forest under the document root. The
root itself (the JSDOM `#document`) is not an element and can match no
selector. -/
structure Document where
  children : List DomNode

/-- A rule set as `PreProcessor` consumes it: name, URL applicability,
removal selectors, cleaning instructions, text patterns, and the
optional hostname-specific selectors capability (the duck-typed
`getHostnameSpecificSelectors`). -/
structure RuleSet where
  name : String
  appliesTo : String → Bool
  removalSelectors : String → List Sel
  cleaningSelectors : String → List CleanRule
  textPatterns : String → List TextPattern
  hostnameSelectors : Option (String → List Sel)

/-- One removal-selector application over the whole document. -/
def removeBySelDoc (sel : Sel) (doc : Document) : Document :=
  ⟨removeBySelList sel doc.children⟩

/-- One cleaning instruction over the whole document. -/
def applyCleanRuleDoc (r : CleanRule) (doc : Document) : Document :=
  ⟨applyCleanRuleList r doc.children⟩

/-- The text-pattern walk over the whole document. -/
def cleanTextPatDoc (pats : List TextPattern) (doc : Document) : Document :=
  ⟨cleanTextPatList pats doc.children⟩

/-- `PreProcessor._applyRule`: removal selectors with content
preservation, then cleaning instructions, then text patterns, then the
hostname-specific selectors when the rule set exposes them. `hostOf`
models `new URL(url).hostname`. -/
def applyRuleSet (hostOf : String → String) (rs : RuleSet) (url : String)
    (doc : Document) : Document :=
  let d1 := (rs.removalSelectors url).foldl (fun d sel => removeBySelDoc sel d) doc
  let d2 := (rs.cleaningSelectors url).foldl (fun d r => applyCleanRuleDoc r d) d1
  let d3 := cleanTextPatDoc (rs.textPatterns url) d2
  match rs.hostnameSelectors with
  | some f => (f (hostOf url)).foldl (fun d sel => removeBySelDoc sel d) d3
  | none => d3

mutual

/-- Remove every element satisfying `p` together with its subtree (the
decision for an element is taken before its descendants are visited,
as the pre-order snapshots of `_performContentCleaning` do). -/
def removeAllWhere (p : DomNode → Bool) : DomNode → Option DomNode
  | .text s => some (.text s)
  | .elem t i cl a ch =>
    if p (.elem t i cl a ch) then none
    else some (.elem t i cl a (removeAllWhereList p ch))

def removeAllWhereList (p : DomNode → Bool) : List DomNode → List DomNode
  | [] => []
  | c :: cs =>
    (match removeAllWhere p c with
     | some c2 => [c2]
     | none => []) ++ removeAllWhereList p cs

end

mutual

/-- Drop the listed attribute names from every element. -/
def stripAttrsEverywhere (bad : List String) : DomNode → DomNode
  | .text s => .text s
  | .elem t i cl a ch =>
    .elem t i cl (a.filter (fun p => ¬ bad.contains p.1))
      (stripAttrsEverywhereList bad ch)

def stripAttrsEverywhereList (bad : List String) : List DomNode → List DomNode
  | [] => []
  | c :: cs => stripAttrsEverywhere bad c :: stripAttrsEverywhereList bad cs

end

/-- `querySelector('img, video, iframe, svg')` of the nbsp-only check. -/
def hasMediaSvgDesc (e : DomNode) : Bool :=
  (descElems e).any (fun d =>
    [Sel.tag "img", Sel.tag "video", Sel.tag "iframe", Sel.tag "svg"].any
      (fun s => selMatches s d))

/-- The tracking attributes dropped by `_performContentCleaning`. -/
def trackingAttributes : List String :=
  ["data-gtm", "data-ga", "data-analytics", "data-track",
    "data-event", "data-pixel", "data-fb", "data-facebook"]

/-- `PreProcessor._performContentCleaning`: remove empty
`p`/`div`/`span`, then whitespace-only `p`/`div`/`span` without media,
then `script`/`style`/`noscript`, then drop tracking attributes. None
of these steps consults the content-preservation predicate. -/
def performContentCleaning (doc : Document) : Document :=
  let isPDS : DomNode → Bool := fun e =>
    [Sel.tag "p", Sel.tag "div", Sel.tag "span"].any (fun s => selMatches s e)
  let d1 : Document := ⟨removeAllWhereList
    (fun e => [Sel.tagEmpty "p", Sel.tagEmpty "div", Sel.tagEmpty "span"].any
      (fun s => selMatches s e)) doc.children⟩
  let d2 : Document := ⟨removeAllWhereList
    (fun e => isPDS e && (jsTrim (textContent e) == "") && !hasMediaSvgDesc e)
    d1.children⟩
  let d3 : Document := ⟨removeAllWhereList
    (fun e => [Sel.tag "script", Sel.tag "style", Sel.tag "noscript"].any
      (fun s => selMatches s e)) d2.children⟩
  ⟨stripAttrsEverywhereList trackingAttributes d3.children⟩

/-- `PreProcessor.process` after parsing: every applicable rule set in
list order, then the content-specific cleaning pass. -/
def preProcess (hostOf : String → String) (rules : List RuleSet) (url : String)
    (doc : Document) : Document :=
  performContentCleaning
    ((rules.filter (fun r => r.appliesTo url)).foldl
      (fun d r => applyRuleSet hostOf r url d) doc)

mutual

/-- The id attributes of a node and all its element descendants. -/
def nodeIds : DomNode → List String
  | .text _ => []
  | .elem _ i _ _ ch => i :: nodeIdsList ch

def nodeIdsList : List DomNode → List String
  | [] => []
  | c :: cs => nodeIds c ++ nodeIdsList cs

end

/-- Whether some element of the document carries the given id. -/
def docContainsId (i : String) (doc : Document) : Bool :=
  (descElemsList doc.children).any (fun e =>
    match e with
    | .elem _ j _ _ _ => j == i
    | .text _ => false)

/-- The id of a node when it is an element. -/
def rootId : DomNode → Option String
  | .elem _ i _ _ _ => some i
  | .text _ => none

/-- `e` sits below `n` through a chain of ancestors none of which the
removal selector `sel` both matches and fails to preserve: the chain
along which a removal pass cannot detach `e` from above. -/
inductive SafelyContains (sel : Sel) : DomNode → DomNode → Prop
  | refl (e : DomNode) : SafelyContains sel e e
  | step (t i : String) (cl : List String) (a : List (String × String))
      (ch : List DomNode) (c e : DomNode) :
      c ∈ ch →
      (selMatches sel (.elem t i cl a ch) &&
        !shouldPreserveElement (.elem t i cl a ch)) = false →
      SafelyContains sel c e →
      SafelyContains sel (.elem t i cl a ch) e

/-! ## Error boundaries of the cleaning pipeline (`ContentCleaner`,
`PreProcessor` rule loop, `PostProcessor`)

The `try`/`catch` boundaries are made explicit: a stage that can throw
is a function into `Except`. -/

/-- The result of `ContentCleaner.cleanContent` (the fields the rest of
the pipeline consumes). -/
structure CleanOutcome where
  success : Bool
  html : String
  error : Option String
deriving DecidableEq

/-- `ContentCleaner.cleanContent`: run the pre-processor; on any
exception return the original HTML with `success: false` and the error
message. -/
def cleanContentRun (pre : String → String → Except String String)
    (html url : String) : CleanOutcome :=
  match pre html url with
  | Except.ok cleaned => { success := true, html := cleaned, error := none }
  | Except.error e => { success := false, html := html, error := some e }

/-- One iteration of the rule loop of `PreProcessor.process`: the rule
set application runs inside its own `try`; a throwing rule set
contributes an entry to `stats.errors` and the loop continues on the
document state it had before that rule set. -/
def ruleStep (acc : Document × List String)
    (app : String × (Document → Except String Document)) : Document × List String :=
  match app.2 acc.1 with
  | Except.ok d2 => (d2, acc.2)
  | Except.error e => (acc.1, acc.2 ++ [app.1 ++ ": " ++ e])

/-- The rule loop of `PreProcessor.process` over a list of named rule
set applications. -/
def applyRuleSetsSafe (apps : List (String × (Document → Except String Document)))
    (doc : Document) : Document × List String :=
  apps.foldl ruleStep (doc, [])

/-- The result of `PostProcessor.process`. -/
structure PostOutcome where
  success : Bool
  content : String
  error : Option String
deriving DecidableEq

/-- `PostProcessor.process`: run the processing steps; on any exception
return the input content untouched with `success: false`. -/
def postProcessRun (body : String → Except String String)
    (content : String) : PostOutcome :=
  match body content with
  | Except.ok c => { success := true, content := c, error := none }
  | Except.error e => { success := false, content := content, error := some e }

/-! ## Content-type metadata and the fetch pipeline branch
(`ContentTypeDetector.extractMetadata`,
`BookmarkContentFetcher.fetchBookmarkContent`)

The individual regex extractors (`extractTitle`, `extractPrice`, …)
are deterministic functions of the HTML and are abstracted as an
`Extractors` record; the dispatch of `extractMetadata` and the
article/non-article branch of `fetchBookmarkContent` are embedded
concretely. The fetch itself, the content-record insertion and the
status writes are outside this model, which covers the record that the
success path inserts. -/

/-- The leaf extractors of `ContentTypeDetector`; those with a string
default (`''` or `'unknown'`) return `String`, those defaulting to
`null` return `Option String`. -/
structure Extractors where
  title : String → String
  description : String → String
  image : String → String
  price : String → Option String
  availability : String → String
  author : String → Option String
  platform : String → String
  videoDuration : String → Option String
  channel : String → Option String

/-- The metadata object of `extractMetadata`: `title`, `description`
and `image` are always present; the outer `Option` of the remaining
fields records whether the type-specific key was added at all. -/
structure TypeMetadata where
  title : String
  description : String
  image : String
  price : Option (Option String) := none
  availability : Option String := none
  author : Option (Option String) := none
  platform : Option String := none
  duration : Option (Option String) := none
  channel : Option (Option String) := none
deriving DecidableEq

/-- `ContentTypeDetector.extractMetadata`: the base fields plus the
switch on the detected type. -/
def extractMetadata (ex : Extractors) (html ty : String) : TypeMetadata :=
  let base : TypeMetadata :=
    { title := ex.title html, description := ex.description html,
      image := ex.image html }
  if ty = "product" then
    { base with
        price := some (ex.price html)
        availability := some (ex.availability html) }
  else if ty = "social" then
    { base with
        author := some (ex.author html)
        platform := some (ex.platform html) }
  else if ty = "video" then
    { base with
        duration := some (ex.videoDuration html)
        channel := some (ex.channel html) }
  else base

/-- Match at a fixed position for the preview link regex, returning the
captured link text and the total match length. -/
def linkMatchParts (l : List Char) : Option (List Char × Nat) :=
  match l with
  | '[' :: rest =>
    let txt := rest.takeWhile (· ≠ ']')
    if txt.length ≥ 1 then
      match rest.dropWhile (· ≠ ']') with
      | ']' :: '(' :: rest2 =>
        let url := rest2.takeWhile (· ≠ ')')
        if url.length ≥ 1 ∧ (rest2.dropWhile (· ≠ ')')).take 1 = [')'] then
          some (txt, txt.length + url.length + 4)
        else none
      | _ => none
    else none
  | _ => none

/-- `s.replace(/\[([^\x5d]+)\]\([^)]+\)/g, '$1')`: replace every link
by its text (`fuel` bounds the recursion by the input length). -/
def stripLinksAux (fuel : Nat) (l : List Char) : List Char :=
  match fuel with
  | 0 => l
  | fuel + 1 =>
    match l with
    | [] => []
    | c :: cs =>
      match linkMatchParts (c :: cs) with
      | some (txt, n) => txt ++ stripLinksAux fuel ((c :: cs).drop n)
      | none => c :: stripLinksAux fuel cs

/-- Link-to-text replacement on a string. -/
def stripLinks (s : String) : String :=
  String.mk (stripLinksAux s.toList.length s.toList)

/-- The character class `[#*` `]` stripped by `generatePreview`. -/
def previewChars : List Char := ['#', '*', Char.ofNat 96]

/-- JS `s.lastIndexOf(c)`: the last index of the character, `-1` when
absent. -/
def lastIndexOfChar (c : Char) (s : String) : ℤ :=
  match (s.toList.enum.filter (fun p => p.2 = c)).getLast? with
  | some p => (p.1 : ℤ)
  | none => -1

/-- `BookmarkContentFetcher.generatePreview`. -/
def generatePreview (text : String) (maxLength : Nat) : String :=
  if text = "" then "" else
  let plainText := jsTrim (collapseWs (stripLinks (removeChars previewChars text)))
  if plainText.length ≤ maxLength then plainText else
  let truncated := String.mk (plainText.toList.take maxLength)
  let lastPeriod := lastIndexOfChar '.' truncated
  if lastPeriod > 100 then String.mk (plainText.toList.take (lastPeriod.toNat + 1))
  else
    let lastSpace := lastIndexOfChar ' ' truncated
    if lastSpace > 100 then String.mk (plainText.toList.take lastSpace.toNat) ++ "..."
    else truncated ++ "..."

/-- The fields of a `Readability.parse()` result that the fetcher
consumes. -/
structure Article where
  content : String
  byline : String
  siteName : String

/-- The collaborators of the article path: the cleaning pipeline, the
Readability extraction boundary (`none` models both a `null` parse
result and one without content), and the post-processor. -/
structure PageCollabs where
  cleanContent : String → String → CleanOutcome
  readability : String → String → Option Article
  postProcess : String → PostOutcome

/-- The `metadata` column of the inserted content record: the article
path stores `{byline, siteName}`, the non-article path stores the
extracted type metadata plus `contentType` and `preservedHtml: true`. -/
inductive RecordExtras where
  | articleData (byline siteName : String)
  | preservedData (meta : TypeMetadata) (ty : String)
deriving DecidableEq

/-- The content record inserted into `user_content` (the fields the
claims speak about). -/
structure ContentRecord where
  title : String
  contentText : String
  preview : String
  contentType : String
  isReadable : Bool
  byline : Option String
  siteName : Option String
  extras : RecordExtras
deriving DecidableEq

/-- The article/non-article branch of
`BookmarkContentFetcher.fetchBookmarkContent` after the content type
has been detected: articles go through cleaning (falling back to the
original HTML on failure), the Readability boundary (whose failure is a
thrown error), and post-processing (falling back to the Readability
content); every other type stores the fetched HTML unchanged together
with the extracted metadata. -/
def buildContentRecord (ex : Extractors) (pc : PageCollabs)
    (bTitle bUrl contentType html : String) : Except String ContentRecord :=
  if contentType = "article" then
    let cr := pc.cleanContent html bUrl
    let cleanedHtml := if cr.success then cr.html else html
    match pc.readability cleanedHtml bUrl with
    | none => Except.error "Could not extract content from page"
    | some article =>
      if article.content = "" then Except.error "Could not extract content from page"
      else
        let pp := pc.postProcess article.content
        let finalContent := if pp.success then pp.content else article.content
        Except.ok
          { title := bTitle
            contentText := finalContent
            preview := generatePreview finalContent 200
            contentType := contentType
            isReadable := true
            byline := some article.byline
            siteName := some article.siteName
            extras := RecordExtras.articleData article.byline article.siteName }
  else
    let meta := extractMetadata ex html contentType
    Except.ok
      { title := if meta.title ≠ "" then meta.title else bTitle
        contentText := html
        preview :=
          if meta.description ≠ "" then meta.description
          else if meta.title ≠ "" then meta.title else bTitle
        contentType := contentType
        isReadable := false
        byline := none
        siteName := none
        extras := RecordExtras.preservedData meta contentType }

/-- `fetchBookmarkContent` with the PDF branch made explicit: a PDF URL
is delegated to the PDF collaborator before any type detection. -/
def fetchBookmarkOutcome (isPDF : Bool) (pdfResult : Except String ContentRecord)
    (ex : Extractors) (pc : PageCollabs)
    (bTitle bUrl contentType html : String) : Except String ContentRecord :=
  if isPDF then pdfResult
  else buildContentRecord ex pc bTitle bUrl contentType html

/-! ## Bookmark batches (`bookmarks-routes.js`, `content-fetcher.js`)

Status and counter bookkeeping of the import pipeline. A bookmark's
individual processing (fetch, clean, persist) is abstracted by an
outcome oracle; the model covers exactly the status transitions and the
batch counter writes the claims are about. -/

/-- `fetch_status` of an imported bookmark. -/
inductive FetchStatus where
  | pending
  | fetching
  | completed
  | failed
deriving DecidableEq

/-- A row of `imported_bookmarks` (the fields the claims speak about). -/
structure Bookmark where
  id : Nat
  userId : Nat
  batchId : Nat
  title : String
  url : String
  fetchStatus : FetchStatus
  fetchError : Option String
  contentId : Option Nat
deriving DecidableEq

/-- A row of `import_batches`. The table has no `fetch_in_progress`
column: the progress route derives the in-progress count from the
bookmark rows. -/
structure ImportBatch where
  id : Nat
  totalBookmarks : Nat
  importedCount : Nat
  fetchPending : Nat
  fetchCompleted : Nat
  fetchFailed : Nat
  importStatus : String
deriving DecidableEq

/-- The two tables of the bookmark import state. -/
structure Store where
  bookmarks : List Bookmark
  batches : List ImportBatch
deriving DecidableEq

/-- The per-row update of the `retry-failed` route: a `failed` bookmark
of the given batch and user becomes `pending` with its error cleared;
every other row is untouched. -/
def retryFailedUpdate (userId batchId : Nat) (b : Bookmark) : Bookmark :=
  if b.batchId = batchId ∧ b.userId = userId ∧ b.fetchStatus = FetchStatus.failed then
    { b with fetchStatus := FetchStatus.pending, fetchError := none }
  else b

/-- `POST /import-batch/:id/retry-failed`: the single `UPDATE … WHERE
import_batch_id = :id AND user_id = :uid AND fetch_status = 'failed'`.
The route performs no write to `import_batches`. -/
def retryFailed (userId batchId : Nat) (db : Store) : Store :=
  { db with bookmarks := db.bookmarks.map (retryFailedUpdate userId batchId) }

/-- The set of rows the `retry-failed` update selects. -/
def failedRows (userId batchId : Nat) (db : Store) : List Bookmark :=
  db.bookmarks.filter (fun b =>
    b.batchId == batchId && b.userId == userId &&
      b.fetchStatus == FetchStatus.failed)

/-- `BookmarkContentFetcher.updateBatchStats`: the direct `UPDATE`
overwriting `fetch_completed` and `fetch_failed` with this slice's
counts and setting `fetch_pending` to `0`. -/
def updateBatchStats (batchId succeeded failedCount : Nat) (db : Store) : Store :=
  { db with batches := db.batches.map (fun b =>
      if b.id == batchId then
        { b with
            fetchCompleted := succeeded
            fetchFailed := failedCount
            fetchPending := 0 }
      else b) }

/-- `BookmarkContentFetcher.updateBatchStatus`. -/
def updateBatchStatus (batchId : Nat) (status : String) (db : Store) : Store :=
  { db with batches := db.batches.map (fun b =>
      if b.id == batchId then { b with importStatus := status } else b) }

/-- The slice size `this.batchSize = 5`. -/
def batchSize : Nat := 5

/-- One run of `processPendingBookmarks`: pull up to `batchSize`
pending rows of the batch, settle each to `completed` or `failed`
according to the outcome oracle, overwrite the batch statistics with
this slice's counts, and mark the batch completed when no pending rows
remain (otherwise the source reschedules itself, which is the next call
of this function). -/
def sliceCycle (outcome : Bookmark → Bool) (userId batchId : Nat)
    (db : Store) : Store :=
  let pending := db.bookmarks.filter (fun b =>
    b.userId == userId && b.batchId == batchId &&
      b.fetchStatus == FetchStatus.pending)
  let slice := pending.take batchSize
  if slice.isEmpty then updateBatchStatus batchId "completed" db
  else
    let sliceIds := slice.map (fun b => b.id)
    let db1 : Store := { db with bookmarks := db.bookmarks.map (fun b =>
      if sliceIds.contains b.id then
        if outcome b then { b with fetchStatus := FetchStatus.completed }
        else { b with fetchStatus := FetchStatus.failed }
      else b) }
    let succeeded := (slice.filter outcome).length
    let failedCount := (slice.filter (fun b => !outcome b)).length
    let db2 := updateBatchStats batchId succeeded failedCount db1
    let remaining := (db2.bookmarks.filter (fun b =>
      b.batchId == batchId && b.fetchStatus == FetchStatus.pending)).length
    if remaining == 0 then updateBatchStatus batchId "completed" db2 else db2

/-- Look up a batch row by id. -/
def findBatch (batchId : Nat) (db : Store) : Option ImportBatch :=
  db.batches.find? (fun b => b.id == batchId)

/-! ## Concrete instances used by the analyses -/

/-- A `div` whose only table descendant has exactly 100 characters of
text. -/
def tableExactly100 : DomNode :=
  DomNode.elem "div" "" [] []
    [DomNode.elem "table" "" [] [] [DomNode.text (String.mk (List.replicate 100 'a'))]]

/-- A `div` holding a short first table and a 150-character second
table. -/
def twoTablesElem : DomNode :=
  DomNode.elem "div" "" [] []
    [DomNode.elem "table" "" [] [] [DomNode.text "short"],
      DomNode.elem "table" "" [] [] [DomNode.text (String.mk (List.replicate 150 'b'))]]

/-- The content-preservation predicate as `_shouldPreserveElement`
actually decides it, worded as a single disjunction: landmark, or
trimmed text over 300 characters with unique-word ratio above 0.5 and
strictly more than 50 words, or at least 3 structural descendants, or a
first `table` descendant whose text is strictly longer than 100
characters. -/
def amendedPreserveElement (e : DomNode) : Bool :=
  landmarkSels.any (fun s => selMatches s e) ||
  (let tc := jsTrim (textContent e)
   let words := jsSplitWs tc
   ((tc.length > 300 : Bool)) &&
     ((((words.map jsToLower).dedup.length : ℚ) / (words.length : ℚ) > 1/2 : Bool)) &&
     ((words.length > 50 : Bool))) ||
  ((((descElems e).filter
      (fun d => structuralSels.any (fun s => selMatches s d))).length ≥ 3 : Bool)) ||
  (match ((descElems e).filter (selMatches (Sel.tag "table"))).head? with
   | some t => ((jsTrim (textContent t)).length > 100 : Bool)
   | none => false)

/-- A rule set holding a single removal selector `.content`. -/
def ruleContentOnly : RuleSet :=
  { name := "base-like"
    appliesTo := fun _ => true
    removalSelectors := fun _ => [Sel.cls "content"]
    cleaningSelectors := fun _ => []
    textPatterns := fun _ => []
    hostnameSelectors := none }

/-- An empty paragraph carrying the `content` landmark class. -/
def emptyContentPara : DomNode := DomNode.elem "p" "keep1" ["content"] [] []

/-- A document with the empty landmark paragraph and a text paragraph. -/
def docA : Document :=
  ⟨[emptyContentPara, DomNode.elem "p" "p2" [] [] [DomNode.text "hello world"]]⟩

/-- A `[role="main"]` element that also carries the matched class. -/
def innerMain : DomNode :=
  DomNode.elem "div" "keep2" ["promo"] [("role", "main")] [DomNode.text "x"]

/-- A document where the preserved element sits inside a matched,
unpreserved ancestor. -/
def docB : Document := ⟨[DomNode.elem "div" "outer" ["promo"] [] [innerMain]]⟩

/-- A pending imported bookmark of user 1, batch 1. -/
def mkPendingBookmark (n : Nat) : Bookmark :=
  { id := n, userId := 1, batchId := 1, title := "t", url := "https://e.com/p",
    fetchStatus := FetchStatus.pending, fetchError := none, contentId := none }

/-- A batch of six bookmarks, all pending, counters as the create-batch
route initialises them. -/
def dbSix : Store :=
  { bookmarks := (List.range 6).map (fun n => mkPendingBookmark (n + 1))
    batches := [{ id := 1, totalBookmarks := 6, importedCount := 6,
                  fetchPending := 6, fetchCompleted := 0, fetchFailed := 0,
                  importStatus := "fetching_content" }] }

/-- A failed bookmark with a retained error text. -/
def failedBm : Bookmark :=
  { id := 1, userId := 1, batchId := 1, title := "t", url := "https://e.com/p",
    fetchStatus := FetchStatus.failed, fetchError := some "HTTP 404: Not Found",
    contentId := none }

/-- A store with one failed bookmark and its batch recording one
failure. -/
def dbRetry : Store :=
  { bookmarks := [failedBm]
    batches := [{ id := 1, totalBookmarks := 1, importedCount := 1,
                  fetchPending := 0, fetchCompleted := 0, fetchFailed := 1,
                  importStatus := "fetching_content" }] }

/-- Constant leaf extractors for concrete runs. -/
def constExtractors : Extractors :=
  { title := fun _ => "Widget", description := fun _ => "", image := fun _ => "img.png",
    price := fun _ => some "9.99", availability := fun _ => "in stock",
    author := fun _ => none, platform := fun _ => "", videoDuration := fun _ => none,
    channel := fun _ => none }

/-- Collaborators that succeed and pass content through. -/
def nullCollabs : PageCollabs :=
  { cleanContent := fun h _ => { success := true, html := h, error := none }
    readability := fun _ _ => none
    postProcess := fun c => { success := true, content := c, error := none } }

/-- Collaborators that all fail. -/
def failingCollabs : PageCollabs :=
  { cleanContent := fun _ _ => { success := false, html := "", error := some "x" }
    readability := fun _ _ => none
    postProcess := fun _ => { success := false, content := "", error := some "y" } }

/-! ## Theorems -/

theorem jsRound_eq_floor (q : ℚ) : jsRound q = ⌊q + 1/2⌋ := by
  unfold jsRound
  rw [Rat.floor_def' (q + 1/2), ← Rat.floor_def]

/-- C10: for every content string with fewer than two blank-line
separated chunks whose trimmed length exceeds 30 characters, the
uniqueness sub-score is exactly 100: the early return fires before the
duplicated-short-sentence analysis, whatever short sentences the string
repeats. -/
theorem scoreUniqueness_eq_100_of_few_chunks (content : String)
    (h : (uniquenessChunks content).length < 2) :
    scoreUniqueness content = 100 := by
  unfold scoreUniqueness
  rw [if_pos h]

/-- Witness for C10 at a string made of five verbatim-repeated short
sentences. -/
theorem scoreUniqueness_eq_100_of_few_chunks_witness :
    (uniquenessChunks "Buy now. Buy now. Buy now. Buy now. Buy now.").length < 2 ∧
      scoreUniqueness "Buy now. Buy now. Buy now. Buy now. Buy now." = 100 :=
  ⟨by decide,
    scoreUniqueness_eq_100_of_few_chunks "Buy now. Buy now. Buy now. Buy now. Buy now."
      (by decide)⟩

/-- C6 counterexample: `setWeights` merges arbitrary values without
validation, so a reconfiguration of the length weight to 0.9 leaves the
five weights summing to 1.7, not 1.0. -/
theorem setWeights_sum_counterexample :
    weightSum defaultWeights = 1 ∧
      weightSum (setWeights defaultWeights { lengthW := some (9/10) }) = 17/10 ∧
      (17/10 : ℚ) ≠ 1 := by
  refine ⟨?_, ?_, by norm_num⟩
  · unfold weightSum defaultWeights
    norm_num
  · unfold weightSum setWeights defaultWeights
    norm_num

/-- C6 amended: the five weights sum to 1.0 in the default
configuration (the one `scoreContent` uses); `setWeights` performs no
validation, so the invariant is guaranteed for the default table only. -/
theorem default_weights_sum_one : weightSum defaultWeights = 1 := by
  unfold weightSum defaultWeights
  norm_num

/-- C7 counterexample: the `> 5000` early return shadows the
`> 10000` one, so a 10001-word input scores 80 — the same as the
5001–10000 range — never the 60 of the above-10000 bucket, and the
peak score 100 is attained at word counts in the 2000–5000 range,
strictly above the 95 that the 500–2000 range reaches. -/
theorem lengthBucket_counterexample :
    scoreLengthQuality "one two three" = lengthBucketScore 3 ∧
      lengthBucketScore 10001 = 80 ∧ lengthBucketScore 10001 ≠ 60 ∧
      lengthBucketScore 1500 = 95 ∧ lengthBucketScore 2500 = 100 ∧
      lengthBucketScore 1500 < lengthBucketScore 2500 := by
  refine ⟨rfl, ?_, ?_, ?_, ?_, ?_⟩ <;>
    · unfold lengthBucketScore; norm_num

/-- C7 amended: the length sub-score is the bucket curve with floor 10
below 50 words, steps 30/50/70/85/95 up to 2000 words, its maximum 100
exactly on the 2000–5000 range, and 80 for everything above 5000
words; the 60-valued above-10000 bucket is unreachable because the
`> 5000` test precedes the `> 10000` test. -/
theorem lengthBucket_curve (n : Nat) :
    (n < 50 → lengthBucketScore n = 10) ∧
    (500 ≤ n → n < 1000 → lengthBucketScore n = 85) ∧
    (1000 ≤ n → n < 2000 → lengthBucketScore n = 95) ∧
    (2000 ≤ n → n ≤ 5000 → lengthBucketScore n = 100) ∧
    (5000 < n → lengthBucketScore n = 80) ∧
    lengthBucketScore n ≠ 60 := by
  unfold lengthBucketScore
  refine ⟨?_, ?_, ?_, ?_, ?_, ?_⟩ <;>
    · intros
      split_ifs <;> first | rfl | omega | norm_num

/-- Witness for C7 amended at 12000 words (and at the peak). -/
theorem lengthBucket_curve_witness :
    lengthBucketScore 12000 = 80 ∧ lengthBucketScore 3000 = 100 :=
  ⟨(lengthBucket_curve 12000).2.2.2.2.1 (by decide),
    (lengthBucket_curve 3000).2.2.2.1 (by decide) (by decide)⟩

theorem le_ite_q {c : Prop} [Decidable c] {a b d : ℚ} (ha : d ≤ a) (hb : d ≤ b) :
    d ≤ (if c then a else b) := by
  split <;> assumption

theorem ite_le_q {c : Prop} [Decidable c] {a b d : ℚ} (ha : a ≤ d) (hb : b ≤ d) :
    (if c then a else b) ≤ d := by
  split <;> assumption

theorem clamp_mem (x : ℚ) : 0 ≤ max 0 (min x 100) ∧ max 0 (min x 100) ≤ 100 :=
  ⟨le_max_left 0 _, max_le (by norm_num) (min_le_right _ _)⟩

theorem lengthBucketScore_mem (n : Nat) :
    10 ≤ lengthBucketScore n ∧ lengthBucketScore n ≤ 100 := by
  unfold lengthBucketScore
  split_ifs <;> norm_num

theorem scoreStructuralQuality_mem (content : String) :
    0 ≤ scoreStructuralQuality content ∧ scoreStructuralQuality content ≤ 100 := by
  simp only [scoreStructuralQuality]
  refine ⟨le_min ?_ (by norm_num), min_le_right _ _⟩
  split_ifs <;> norm_num

theorem scoreReadabilityQuality_mem (content : String) :
    0 ≤ scoreReadabilityQuality content ∧ scoreReadabilityQuality content ≤ 100 := by
  simp only [scoreReadabilityQuality]
  by_cases hp : readabilityPlainText content = ""
  · rw [if_pos hp]; norm_num
  · rw [if_neg hp]; exact clamp_mem _

theorem uniq_clamp_mem {r pen : ℚ} (hr0 : 0 ≤ r) (hr1 : r ≤ 1)
    (hp0 : 0 ≤ pen) (hp1 : pen ≤ 20) :
    30 ≤ max 0 (100 - r * 50 - pen) ∧ max 0 (100 - r * 50 - pen) ≤ 100 := by
  constructor
  · refine le_max_iff.mpr (Or.inr ?_); nlinarith
  · refine max_le (by norm_num) (by nlinarith)

theorem scoreUniqueness_mem (content : String) :
    30 ≤ scoreUniqueness content ∧ scoreUniqueness content ≤ 100 := by
  simp only [scoreUniqueness]
  by_cases hc : (uniquenessChunks content).length < 2
  · rw [if_pos hc]; norm_num
  · rw [if_neg hc]
    have h2 : 2 ≤ (uniquenessChunks content).length := Nat.le_of_not_lt hc
    have hn : 0 < ((uniquenessChunks content).length : ℚ) := by
      exact_mod_cast Nat.lt_of_lt_of_le (by norm_num) h2
    refine uniq_clamp_mem (by positivity) ?_
      (le_ite_q (by norm_num) (by norm_num)) (ite_le_q (by norm_num) (by norm_num))
    rw [div_le_one hn]
    have hd : dupCount ((uniquenessChunks content).map
        (fun c => jsTrim (collapseWs (jsToLower c)))) ≤
        (uniquenessChunks content).length := by
      calc dupCount ((uniquenessChunks content).map
            (fun c => jsTrim (collapseWs (jsToLower c))))
          ≤ ((uniquenessChunks content).map
            (fun c => jsTrim (collapseWs (jsToLower c)))).length := Nat.sub_le _ _
        _ = (uniquenessChunks content).length := List.length_map _ _
    exact_mod_cast hd

theorem scoreFormattingQuality_mem (content : String) :
    -20 ≤ scoreFormattingQuality content ∧ scoreFormattingQuality content ≤ 100 := by
  simp only [scoreFormattingQuality]
  refine ⟨le_min ?_ (by norm_num), min_le_right _ _⟩
  split_ifs <;> norm_num

theorem overallScore_default_mem {b : ScoreBreakdown}
    (h1 : 10 ≤ b.lengthS) (h2 : b.lengthS ≤ 100)
    (h3 : 0 ≤ b.structureS) (h4 : b.structureS ≤ 100)
    (h5 : 0 ≤ b.readabilityS) (h6 : b.readabilityS ≤ 100)
    (h7 : 30 ≤ b.uniquenessS) (h8 : b.uniquenessS ≤ 100)
    (h9 : -20 ≤ b.formattingS) (h10 : b.formattingS ≤ 100) :
    0 ≤ overallScore defaultWeights b ∧ overallScore defaultWeights b ≤ 100 := by
  unfold overallScore defaultWeights
  constructor <;> · simp only; linarith

theorem jsRound_mem {q : ℚ} (h0 : 0 ≤ q) (h1 : q ≤ 100) :
    0 ≤ jsRound q ∧ jsRound q ≤ 100 := by
  rw [jsRound_eq_floor]
  constructor
  · exact Int.le_floor.mpr (by push_cast; linarith)
  · have h : (⌊q + 1/2⌋ : ℤ) < 101 := Int.floor_lt.mpr (by push_cast; linarith)
    omega

/-- C5: the scorer is total: for every input string (the empty string
included) the `try` body succeeds with an overall score in [0, 100] —
on the empty string a low score of 17 — and whenever the body does
throw, the `catch` returns the neutral default 50 together with the
error flag. -/
theorem scoreContent_props :
    (∀ content : String,
      0 ≤ (scoreContent content).overall ∧ (scoreContent content).overall ≤ 100) ∧
    (scoreContent "").overall = 17 ∧
    (∀ (body : String → Except String ScoreResult) (content e : String),
      body content = Except.error e →
        scoreContentGuarded body content = scoreErrorResult e ∧
        (scoreContentGuarded body content).overall = 50 ∧
        (scoreContentGuarded body content).error = some e) := by
  refine ⟨fun content => ?_, ?_, fun body content e h => ?_⟩
  · show 0 ≤ jsRound (overallScore defaultWeights (scoreBreakdown content)) ∧
      jsRound (overallScore defaultWeights (scoreBreakdown content)) ≤ 100
    have hov := overallScore_default_mem
      (b := scoreBreakdown content)
      (lengthBucketScore_mem (jsSplitWs content).length).1
      (lengthBucketScore_mem (jsSplitWs content).length).2
      (scoreStructuralQuality_mem content).1 (scoreStructuralQuality_mem content).2
      (scoreReadabilityQuality_mem content).1 (scoreReadabilityQuality_mem content).2
      (scoreUniqueness_mem content).1 (scoreUniqueness_mem content).2
      (scoreFormattingQuality_mem content).1 (scoreFormattingQuality_mem content).2
    exact jsRound_mem hov.1 hov.2
  · with_unfolding_all rfl
  · unfold scoreContentGuarded
    rw [h]
    exact ⟨rfl, rfl, rfl⟩

/-- Witness for C5 at a concrete string and a concrete throwing body. -/
theorem scoreContent_props_witness :
    (0 ≤ (scoreContent "hello there").overall ∧
      (scoreContent "hello there").overall ≤ 100) ∧
    (scoreContentGuarded (fun _ => Except.error "boom") "hello there" =
        scoreErrorResult "boom" ∧
      (scoreContentGuarded (fun _ => Except.error "boom") "hello there").overall = 50 ∧
      (scoreContentGuarded (fun _ => Except.error "boom") "hello there").error =
        some "boom") :=
  ⟨scoreContent_props.1 "hello there",
    scoreContent_props.2.2 (fun _ => Except.error "boom") "hello there" "boom" rfl⟩

set_option maxRecDepth 4000 in
/-- C3 counterexample: an element whose table holds exactly 100
characters of text satisfies the predicate as the specification words
it (a table at least 100 characters long) but
`_shouldPreserveElement` rejects it, which requires strictly more than
100; likewise an element whose second table is long is accepted by the
specification wording but rejected by the source, which consults only
the first table descendant. -/
theorem preserve_predicate_counterexample :
    specPreserveElement tableExactly100 = true ∧
      shouldPreserveElement tableExactly100 = false ∧
      specPreserveElement twoTablesElem = true ∧
      shouldPreserveElement twoTablesElem = false := by
  decide

/-- C3 amended: the content-preservation predicate returns true if and
only if the element matches a canonical main-content landmark, or its
trimmed text exceeds 300 characters with a unique-word ratio above 0.5
and strictly more than 50 words, or it has at least 3 structural
content descendants (`h1`/`h2`/`h3`/`p`/`article`/`table`), or its
first `table` descendant has text strictly longer than 100 characters. -/
theorem shouldPreserve_iff_amended (e : DomNode) :
    shouldPreserveElement e = amendedPreserveElement e := by
  simp only [shouldPreserveElement, amendedPreserveElement]
  by_cases h1 : landmarkSels.any (fun s => selMatches s e) = true <;>
  by_cases h2 : (jsTrim (textContent e)).length > 300 <;>
  by_cases h3 : ((descElems e).filter
      (fun d => structuralSels.any (fun s => selMatches s d))).length ≥ 3 <;>
    simp [h1, h2, h3]

/-- C4 counterexample: an element that a removal rule matches and the
preservation predicate protects is nonetheless gone at the end of the
run — the final content-cleaning pass deletes the preserved empty
landmark paragraph unconditionally — and even within a single removal
pass a preserved element disappears when a matched, unpreserved
ancestor is removed. -/
theorem preservation_not_monotonic_counterexample :
    selMatches (Sel.cls "content") emptyContentPara = true ∧
    shouldPreserveElement emptyContentPara = true ∧
    docContainsId "keep1" (applyRuleSet (fun _ => "example.com") ruleContentOnly
      "https://example.com/a" docA) = true ∧
    docContainsId "keep1" (preProcess (fun _ => "example.com") [ruleContentOnly]
      "https://example.com/a" docA) = false ∧
    selMatches (Sel.cls "promo") innerMain = true ∧
    shouldPreserveElement innerMain = true ∧
    docContainsId "keep2" (removeBySelDoc (Sel.cls "promo") docB) = false := by
  with_unfolding_all decide

theorem nodeIds_mem_removeList {sel : Sel} {ch : List DomNode} {c m : DomNode}
    {x : String} (hc : c ∈ ch) (hr : removeBySel sel c = some m)
    (hx : x ∈ nodeIds m) :
    x ∈ nodeIdsList (removeBySelList sel ch) := by
  induction ch with
  | nil => cases hc
  | cons d ds ih =>
    rcases List.mem_cons.mp hc with rfl | hmem
    · rw [removeBySelList, hr]
      exact List.mem_append_left _ hx
    · rw [removeBySelList]
      cases hd : removeBySel sel d with
      | none => simpa using ih hmem
      | some d2 =>
        exact List.mem_append_right _ (by simpa using ih hmem)

/-- C4 amended: an element that satisfies the preservation predicate
when a removal selector matches it is never removed by that selector
application itself: it survives the pass (with its own matched
descendants filtered) whenever no ancestor on the way down is matched
without being preserved. Deletion can still happen later — by a
matched unpreserved ancestor, an emptiness cleaning action, the
text-pattern ancestor pruning, or the final content-cleaning pass, as
the counterexample shows. -/
theorem preserved_survives_own_selector (sel : Sel) (n e : DomNode)
    (hsafe : SafelyContains sel n e)
    (hm : selMatches sel e = true)
    (hp : shouldPreserveElement e = true) :
    ∃ i, rootId e = some i ∧
      ∃ m, removeBySel sel n = some m ∧ i ∈ nodeIds m := by
  induction hsafe with
  | refl e0 =>
    cases e0 with
    | text s => simp [selMatches] at hm
    | elem t i cl a ch =>
      refine ⟨i, rfl, DomNode.elem t i cl a (removeBySelList sel ch), ?_, ?_⟩
      · rw [removeBySel, hm, hp]
        rfl
      · rw [nodeIds]
        exact List.mem_cons_self _ _
  | step t i cl a ch c e0 hmem hanc hsub ih =>
    obtain ⟨i0, hroot, m, hrm, hin⟩ := ih hm hp
    refine ⟨i0, hroot, DomNode.elem t i cl a (removeBySelList sel ch), ?_, ?_⟩
    · rw [removeBySel, hanc]
      rfl
    · rw [nodeIds]
      exact List.mem_cons_of_mem _ (nodeIds_mem_removeList hmem hrm hin)

/-- Witness for C4 amended: the preserved landmark paragraph survives
the application of the selector that matched it. -/
theorem preserved_survives_own_selector_witness :
    ∃ i, rootId (DomNode.elem "p" "w1" ["content"] [] []) = some i ∧
      ∃ m, removeBySel (Sel.cls "content")
          (DomNode.elem "p" "w1" ["content"] [] []) = some m ∧
        i ∈ nodeIds m :=
  preserved_survives_own_selector (Sel.cls "content") _ _
    (SafelyContains.refl _) (by decide) (by decide)

/-- C1: the invariant `fetch_pending + fetch_in_progress +
fetch_completed + fetch_failed = total` does not survive a slice cycle
on a batch larger than one slice. After the first slice of a six-item
batch (all five items succeeding), `updateBatchStats` has overwritten
the stored counters with this slice's counts and zeroed
`fetch_pending`, so the stored counters sum to 5 while one bookmark is
still pending and the total is 6. (No `fetch_in_progress` column
exists to make up the difference: the batch row carries only the three
fetch counters.) -/
theorem slice_cycle_counter_overwrite :
    findBatch 1 (sliceCycle (fun _ => true) 1 1 dbSix) =
      some { id := 1, totalBookmarks := 6, importedCount := 6,
             fetchPending := 0, fetchCompleted := 5, fetchFailed := 0,
             importStatus := "fetching_content" } ∧
    ((sliceCycle (fun _ => true) 1 1 dbSix).bookmarks.filter
      (fun b => b.fetchStatus == FetchStatus.pending)).length = 1 ∧
    (0 + 5 + 0 : Nat) ≠ 6 := by
  decide

/-- C2 counterexample: the `retry-failed` route resets the one failed
bookmark to pending but performs no write to `import_batches`: the
stored `fetch_failed` stays 1 instead of dropping to 0 as claimed. -/
theorem retry_failed_counter_counterexample :
    (failedRows 1 1 dbRetry).length = 1 ∧
    (findBatch 1 dbRetry).map ImportBatch.fetchFailed = some 1 ∧
    (findBatch 1 (retryFailed 1 1 dbRetry)).map ImportBatch.fetchFailed = some 1 ∧
    ((retryFailed 1 1 dbRetry).bookmarks.filter
      (fun b => b.fetchStatus == FetchStatus.pending)).length = 1 := by
  decide

/-- C2 amended: retry-failed transitions exactly the set of `failed`
items of the given batch and user to `pending`, clearing only the
error text; every other item, every other field, and every batch row —
the stored `fetch_failed` counter included — is left unchanged. -/
theorem retry_failed_frame (uid bid : Nat) (db : Store) :
    (retryFailed uid bid db).batches = db.batches ∧
    (retryFailed uid bid db).bookmarks.length = db.bookmarks.length ∧
    ∀ (k : Nat) (b b2 : Bookmark), db.bookmarks[k]? = some b →
      (retryFailed uid bid db).bookmarks[k]? = some b2 →
      (b.batchId = bid ∧ b.userId = uid ∧ b.fetchStatus = FetchStatus.failed →
        b2 = { b with fetchStatus := FetchStatus.pending, fetchError := none }) ∧
      (¬(b.batchId = bid ∧ b.userId = uid ∧ b.fetchStatus = FetchStatus.failed) →
        b2 = b) ∧
      b2.id = b.id ∧ b2.userId = b.userId ∧ b2.batchId = b.batchId ∧
      b2.title = b.title ∧ b2.url = b.url ∧ b2.contentId = b.contentId := by
  refine ⟨rfl, by simp [retryFailed], fun k b b2 hb hb2 => ?_⟩
  have hmap : (retryFailed uid bid db).bookmarks[k]? =
      (db.bookmarks[k]?).map (retryFailedUpdate uid bid) := List.getElem?_map _ _ _
  rw [hmap, hb] at hb2
  have hb2e : b2 = retryFailedUpdate uid bid b := by
    injection hb2 with h
    exact h.symm
  subst hb2e
  unfold retryFailedUpdate
  split
  · next h =>
    exact ⟨fun _ => rfl, fun hn => absurd h hn, rfl, rfl, rfl, rfl, rfl, rfl⟩
  · next h =>
    exact ⟨fun hc => absurd hc h, fun _ => rfl, rfl, rfl, rfl, rfl, rfl, rfl⟩

/-- Witness for C2 amended at the one-failed-bookmark store. -/
theorem retry_failed_frame_witness :
    (retryFailed 1 1 dbRetry).batches = dbRetry.batches ∧
      retryFailedUpdate 1 1 failedBm =
        { failedBm with fetchStatus := FetchStatus.pending, fetchError := none } :=
  ⟨(retry_failed_frame 1 1 dbRetry).1,
    ((retry_failed_frame 1 1 dbRetry).2.2 0 failedBm (retryFailedUpdate 1 1 failedBm)
      rfl rfl).1 (by decide)⟩

theorem ruleStep_foldl_accum
    (apps : List (String × (Document → Except String Document)))
    (doc : Document) (es : List String) :
    apps.foldl ruleStep (doc, es) =
      ((applyRuleSetsSafe apps doc).1, es ++ (applyRuleSetsSafe apps doc).2) := by
  induction apps generalizing doc es with
  | nil => simp [applyRuleSetsSafe]
  | cons a as ih =>
    simp only [applyRuleSetsSafe, List.foldl_cons]
    cases h : a.2 doc with
    | ok d2 =>
      have h1 : ruleStep (doc, es) a = (d2, es) := by simp [ruleStep, h]
      have h2 : ruleStep (doc, []) a = (d2, []) := by simp [ruleStep, h]
      rw [h1, h2, ih, ih]
      simp [applyRuleSetsSafe]
    | error e =>
      have h1 : ruleStep (doc, es) a = (doc, es ++ [a.1 ++ ": " ++ e]) := by
        simp [ruleStep, h]
      have h2 : ruleStep (doc, []) a = (doc, [a.1 ++ ": " ++ e]) := by
        simp [ruleStep, h]
      rw [h1, h2, ih, ih]
      simp [applyRuleSetsSafe, List.append_assoc]

/-- C8: the three error boundaries degrade instead of propagating.
When the pre-processing stage throws, `cleanContent` returns the
original HTML unchanged with the failure flag; a rule set that throws
contributes exactly one error entry while the document flows through
it untouched and every later rule set still runs; and when the
post-processor body throws, `process` returns the pre-conversion
content untouched with the failure flag. -/
theorem error_boundaries_degrade
    (pre : String → String → Except String String) (html url e1 : String)
    (hpre : pre html url = Except.error e1)
    (pref sufx : List (String × (Document → Except String Document)))
    (nm e2 : String) (doc : Document)
    (body : String → Except String String) (content e3 : String)
    (hbody : body content = Except.error e3) :
    cleanContentRun pre html url =
      { success := false, html := html, error := some e1 } ∧
    applyRuleSetsSafe (pref ++ (nm, fun _ => Except.error e2) :: sufx) doc =
      ((applyRuleSetsSafe sufx (applyRuleSetsSafe pref doc).1).1,
        (applyRuleSetsSafe pref doc).2 ++ (nm ++ ": " ++ e2) ::
          (applyRuleSetsSafe sufx (applyRuleSetsSafe pref doc).1).2) ∧
    postProcessRun body content =
      { success := false, content := content, error := some e3 } := by
  refine ⟨?_, ?_, ?_⟩
  · unfold cleanContentRun
    rw [hpre]
  · show (pref ++ (nm, fun _ => Except.error e2) :: sufx).foldl ruleStep (doc, []) = _
    rw [List.foldl_append, List.foldl_cons]
    have hmid : ruleStep (pref.foldl ruleStep (doc, []))
        (nm, fun _ => Except.error e2) =
        ((pref.foldl ruleStep (doc, [])).1,
          (pref.foldl ruleStep (doc, [])).2 ++ [nm ++ ": " ++ e2]) := rfl
    rw [hmid]
    rw [show pref.foldl ruleStep (doc, []) = applyRuleSetsSafe pref doc from rfl]
    rw [ruleStep_foldl_accum]
    simp [List.append_assoc]
  · unfold postProcessRun
    rw [hbody]

/-- Witness for C8 with concrete failing stages. -/
theorem error_boundaries_degrade_witness :
    cleanContentRun (fun _ _ => Except.error "parse failure") "<html>" "https://e.com" =
      { success := false, html := "<html>", error := some "parse failure" } ∧
    applyRuleSetsSafe ([("good", fun d => Except.ok d)] ++
        ("bad", fun _ => Except.error "selector blew up") :: []) ⟨[]⟩ =
      ((applyRuleSetsSafe []
          (applyRuleSetsSafe [("good", fun d => Except.ok d)] ⟨[]⟩).1).1,
        (applyRuleSetsSafe [("good", fun d => Except.ok d)] ⟨[]⟩).2 ++
          ("bad" ++ ": " ++ "selector blew up") ::
            (applyRuleSetsSafe []
              (applyRuleSetsSafe [("good", fun d => Except.ok d)] ⟨[]⟩).1).2) ∧
    postProcessRun (fun _ => Except.error "conversion failure") "content" =
      { success := false, content := "content", error := some "conversion failure" } :=
  error_boundaries_degrade (fun _ _ => Except.error "parse failure") "<html>"
    "https://e.com" "parse failure" rfl
    [("good", fun d => Except.ok d)] [] "bad" "selector blew up" ⟨[]⟩
    (fun _ => Except.error "conversion failure") "content" "conversion failure" rfl

/-- C9: for every non-PDF item whose detected type is not `article`,
the fetch pipeline inserts the fetched HTML itself as the content
record's content together with the type-specific metadata of
`extractMetadata` (title/description/image always, price/availability
for `product`, author/platform for `social`, duration/channel for
`video`), marks it not readable, and never consults the cleaning,
Readability-extraction or post-processing collaborators: the record is
the same under any two collaborator bundles. -/
theorem non_article_metadata_path
    (ex : Extractors) (pc pc2 : PageCollabs) (pdfResult : Except String ContentRecord)
    (bTitle bUrl ty html : String) (hty : ty ≠ "article") :
    fetchBookmarkOutcome false pdfResult ex pc bTitle bUrl ty html =
      Except.ok
        { title := if (extractMetadata ex html ty).title ≠ "" then
            (extractMetadata ex html ty).title else bTitle
          contentText := html
          preview :=
            if (extractMetadata ex html ty).description ≠ "" then
              (extractMetadata ex html ty).description
            else if (extractMetadata ex html ty).title ≠ "" then
              (extractMetadata ex html ty).title else bTitle
          contentType := ty
          isReadable := false
          byline := none
          siteName := none
          extras := RecordExtras.preservedData (extractMetadata ex html ty) ty } ∧
    fetchBookmarkOutcome false pdfResult ex pc bTitle bUrl ty html =
      fetchBookmarkOutcome false pdfResult ex pc2 bTitle bUrl ty html ∧
    (ty = "product" →
      (extractMetadata ex html ty).price = some (ex.price html) ∧
      (extractMetadata ex html ty).availability = some (ex.availability html)) ∧
    (ty = "social" →
      (extractMetadata ex html ty).author = some (ex.author html) ∧
      (extractMetadata ex html ty).platform = some (ex.platform html)) ∧
    (ty = "video" →
      (extractMetadata ex html ty).duration = some (ex.videoDuration html) ∧
      (extractMetadata ex html ty).channel = some (ex.channel html)) ∧
    (extractMetadata ex html ty).title = ex.title html ∧
    (extractMetadata ex html ty).description = ex.description html ∧
    (extractMetadata ex html ty).image = ex.image html := by
  refine ⟨?_, ?_, fun hp => ?_, fun hs => ?_, fun hv => ?_, ?_, ?_, ?_⟩
  · unfold fetchBookmarkOutcome buildContentRecord
    rw [if_neg Bool.false_ne_true, if_neg hty]
  · unfold fetchBookmarkOutcome buildContentRecord
    rw [if_neg Bool.false_ne_true, if_neg Bool.false_ne_true, if_neg hty, if_neg hty]
  · subst hp
    unfold extractMetadata
    rw [if_pos rfl]
    exact ⟨rfl, rfl⟩
  · subst hs
    unfold extractMetadata
    rw [if_neg (by decide), if_pos rfl]
    exact ⟨rfl, rfl⟩
  · subst hv
    unfold extractMetadata
    rw [if_neg (by decide), if_neg (by decide), if_pos rfl]
    exact ⟨rfl, rfl⟩
  · unfold extractMetadata
    split_ifs <;> rfl
  · unfold extractMetadata
    split_ifs <;> rfl
  · unfold extractMetadata
    split_ifs <;> rfl

/-- Witness for C9 at a concrete `product` page with two different
collaborator bundles. -/
theorem non_article_metadata_path_witness :
    fetchBookmarkOutcome false (Except.error "pdf") constExtractors nullCollabs
        "B" "https://s.com/p" "product" "<html>" =
      fetchBookmarkOutcome false (Except.error "pdf") constExtractors failingCollabs
        "B" "https://s.com/p" "product" "<html>" ∧
    (extractMetadata constExtractors "<html>" "product").price = some (some "9.99") :=
  ⟨(non_article_metadata_path constExtractors nullCollabs failingCollabs
      (Except.error "pdf") "B" "https://s.com/p" "product" "<html>" (by decide)).2.1,
    ((non_article_metadata_path constExtractors nullCollabs failingCollabs
      (Except.error "pdf") "B" "https://s.com/p" "product" "<html>"
      (by decide)).2.2.1 rfl).1⟩

end RAProxy
